import Mathlib

/-!
Shallow embedding of the two scripts of the KITTI frames-to-video repository:

* `frames_to_video.py` — `create_video`: globs the image files of a folder,
  sorts them (numerically by the first digit run of the basename, with a
  lexical fallback), reads the first frame to fix the video resolution,
  then writes every frame, aborting on a resolution mismatch.
* `process_kitti_drives.py` — `process_all_drives`: discovers `*_sync`
  drive folders, and converts each drive's `image_02/data` folder into a
  video named after the drive.

Filenames are modelled by their basenames (every glob result of one call
shares the same directory, so both the numeric key, which is computed on
the basename, and the lexical fallback sort order agree with the order of
the full paths).  `cv2.imread` is modelled by an arbitrary decode function
`String → Option Image` (`none` is OpenCV's `None` result for an unreadable
file).  The effects of `cv2.VideoWriter` (file creation, `write`, `release`,
`os.remove`) are recorded in the `VideoResult` record.
-/

/-- The shape of a decoded OpenCV image: `frame.shape = (height, width, layers)`. -/
structure Image where
  height : Nat
  width : Nat
  layers : Nat
deriving DecidableEq

/-- How a `create_video` call ends.  `noImages`, `unreadableFirst` and
`mismatch` are the script's explicit `return` paths; `success` is the normal
completion; `crash path` models the uncaught `AttributeError` raised at
`frame.shape` when `cv2.imread` returns `None` for a frame inside the
writing loop. -/
inductive CVOutcome
| noImages
| unreadableFirst (path : String)
| mismatch (path : String) (expectedW expectedH actualW actualH : Nat)
| crash (path : String)
| success
deriving DecidableEq

/-- Observable result of a `create_video` call: the outcome, the `(width,
height)` the writer was opened with (if it was opened), the frames written in
order, whether a file is present at `output_video_path` on exit, and whether
`video_writer.release()` ran before exit. -/
structure VideoResult where
  outcome : CVOutcome
  size : Option (Nat × Nat)
  written : List Image
  fileExists : Bool
  released : Bool
deriving DecidableEq

/-- Value of the leading digit run of `cs`, as `int` parses it
(most-significant digit first). -/
def digitRunVal (cs : List Char) : Nat :=
  (cs.takeWhile Char.isDigit).foldl (fun a c => a * 10 + (c.toNat - 48)) 0

/-- `re.search(r'\d+', s)` on the character list of a basename: the value of
the first (leftmost, maximal) run of decimal digits, or `none` when the name
has no digit. -/
def firstDigitRun : List Char → Option Nat
  | [] => none
  | c :: cs => if c.isDigit then some (digitRunVal (c :: cs)) else firstDigitRun cs

/-- Whether `re.search(r'\d+', basename)` succeeds, i.e. the sort key
`int(re.search(r'\d+', os.path.basename(f)).group())` can be computed. -/
def hasKey (f : String) : Bool :=
  (firstDigitRun f.data).isSome

/-- The numeric sort key of a basename (only meaningful when `hasKey`). -/
def keyNat (f : String) : Nat :=
  match firstDigitRun f.data with
  | some n => n
  | none => 0

/-- Python string `<=` on character lists: code-point lexicographic order. -/
def lexLeB : List Char → List Char → Bool
  | [], _ => true
  | _ :: _, [] => false
  | a :: as, b :: bs => if a.toNat = b.toNat then lexLeB as bs else decide (a.toNat < b.toNat)

/-- Python's default string order, as a relation on basenames. -/
def lexLe (a b : String) : Prop :=
  lexLeB a.data b.data = true

/-- The order used by `image_files.sort(key=lambda f: int(...))`: compare the
numeric keys only (CPython's decorate-sort keeps ties in input order, as
insertion sort does). -/
def numLe (a b : String) : Prop :=
  keyNat a ≤ keyNat b

instance : DecidableRel lexLe := fun a b =>
  inferInstanceAs (Decidable (lexLeB a.data b.data = true))

instance : DecidableRel numLe := fun a b =>
  inferInstanceAs (Decidable (keyNat a ≤ keyNat b))

/-- The sorting step of `create_video`: try the numeric sort; if any basename
lacks a digit run the key lambda raises `AttributeError` (CPython computes all
keys before moving any element, so the list is still in its original order)
and the handler falls back to `image_files.sort()`, a plain lexical sort of
the whole list. -/
def sortFrames (files : List String) : List String :=
  if files.all hasKey then List.insertionSort numLe files
  else List.insertionSort lexLe files

/-- The frame-writing loop of `create_video` (step 4 of the script), given the
`width`/`height` read off the first frame and the frames written so far.  For
each path: `cv2.imread`; a `None` frame crashes at `frame.shape[0]`
(`AttributeError`), leaving the writer unreleased and the partial file in
place; a frame whose `shape[0]`/`shape[1]` differ from `height`/`width` makes
the script release the writer, `os.remove` the output file and return;
otherwise the frame is written and the loop continues. -/
def writeLoop (decode : String → Option Image) (width height : Nat) :
    List String → List Image → VideoResult
  | [], written =>
    { outcome := .success, size := some (width, height), written := written,
      fileExists := true, released := true }
  | path :: rest, written =>
    match decode path with
    | none =>
      { outcome := .crash path, size := some (width, height), written := written,
        fileExists := true, released := false }
    | some frame =>
      if frame.height ≠ height ∨ frame.width ≠ width then
        { outcome := .mismatch path width height frame.width frame.height,
          size := some (width, height), written := written,
          fileExists := false, released := true }
      else
        writeLoop decode width height rest (written ++ [frame])

/-- `create_video(image_folder, output_video_path, fps, image_ext)`, with the
glob result abstracted to the list of basenames `files` and `cv2.imread`
abstracted to `decode`.  Empty glob: report and return (no file is created).
Then sort, read `image_files[0]` for the resolution (`None`: report and
return), open the writer (the file now exists) and run the writing loop over
the whole sorted list (the first frame is read again by the loop). -/
def create_video (decode : String → Option Image) (files : List String) : VideoResult :=
  if files.isEmpty then
    { outcome := .noImages, size := none, written := [], fileExists := false, released := false }
  else
    match sortFrames files with
    | [] =>
      -- unreachable: sorting a non-empty list is non-empty, so image_files[0] exists
      { outcome := .noImages, size := none, written := [], fileExists := false, released := false }
    | first :: rest =>
      match decode first with
      | none =>
        { outcome := .unreadableFirst first, size := none, written := [],
          fileExists := false, released := false }
      | some img0 =>
        writeLoop decode img0.width img0.height (first :: rest) []

/-- Python `basename.replace('_sync', '')` on a character list: remove every
(non-overlapping, left-to-right) occurrence of `_sync`. -/
def dropSyncAll : List Char → List Char
  | '_' :: 's' :: 'y' :: 'n' :: 'c' :: cs => dropSyncAll cs
  | c :: cs => c :: dropSyncAll cs
  | [] => []

/-- `os.path.basename(drive_path).replace('_sync', '')`, the `drive_name`
computed by `process_all_drives`. -/
def replaceSync (s : String) : String :=
  ⟨dropSyncAll s.data⟩

/-- Modelled from the spec: "derive `drive_name` by stripping the `_sync`
suffix from the subdirectory's basename" — remove one trailing `_sync` and
change nothing else.  This is the spec-side comparator for the `drive_name`
computation; the code-side definition is `replaceSync`. -/
def stripSyncSuffix (s : String) : String :=
  if List.isSuffixOf ['_', 's', 'y', 'n', 'c'] s.data then
    ⟨s.data.take (s.data.length - 5)⟩
  else s

/-- A drive as discovered by `glob(os.path.join(kitti_test_root, "*", "*_sync"))`:
the date directory and the `*_sync` basename (which together determine the
glob path), whether `<drive>/image_02/data` is a directory, the basenames of
its `.png` frames, and the decoder for its frame files. -/
structure Drive where
  date : String
  base : String
  hasImageFolder : Bool
  frames : List String
  decode : String → Option Image

/-- The path key `drive_paths.sort()` orders by.  All discovered paths share
the `kitti_test_root` prefix, so the order is that of `date/base`. -/
def drivePathKey (d : Drive) : String :=
  d.date ++ "/" ++ d.base

/-- Lexical order of the glob paths, used by `drive_paths.sort()`. -/
def pathLe (a b : Drive) : Prop :=
  lexLe (drivePathKey a) (drivePathKey b)

instance : DecidableRel pathLe := fun a b =>
  inferInstanceAs (Decidable (lexLe (drivePathKey a) (drivePathKey b)))

/-- What `process_all_drives` records for one drive: either the
missing-image-folder skip, or a `create_video` call with the drive name, the
output video path and the call's result. -/
inductive DriveOutcome
| skipped (driveName : String)
| converted (driveName : String) (outputPath : String) (result : VideoResult)
deriving DecidableEq

/-- Observable result of a `process_all_drives` call: the number of drives
the "Found ... drives to process." line reports, the per-drive outcomes in
processing order, whether an exception escaped the loop (aborting the batch),
and the line printed after the loop, if it is reached. -/
structure BatchResult where
  foundCount : Nat
  outcomes : List DriveOutcome
  aborted : Bool
  finalLine : Option String

/-- Whether a `create_video` call ended in an uncaught exception. -/
def isCrash : CVOutcome → Bool
  | .crash _ => true
  | _ => false

/-- The per-drive loop of `process_all_drives` (steps 2–5 of the script).
Each drive: compute `drive_name`; if `image_02/data` is missing, warn and
`continue`; otherwise call `create_video` on the folder with output path
`<output_dir>/<drive_name>.mp4`.  A `crash` outcome is an uncaught exception
inside `create_video`: it propagates and stops the loop; every other outcome
(including the error returns) lets the loop move to the next drive. -/
def processDrives (outputDir : String) : List Drive → List DriveOutcome × Bool
  | [] => ([], true)
  | d :: ds =>
    let driveName := replaceSync d.base
    if d.hasImageFolder then
      let outPath := outputDir ++ "/" ++ driveName ++ ".mp4"
      let res := create_video d.decode d.frames
      if isCrash res.outcome then ([DriveOutcome.converted driveName outPath res], false)
      else
        let p := processDrives outputDir ds
        (DriveOutcome.converted driveName outPath res :: p.1, p.2)
    else
      let p := processDrives outputDir ds
      (DriveOutcome.skipped driveName :: p.1, p.2)

/-- `process_all_drives(kitti_test_root, output_dir, fps)`, with the glob
result abstracted to `drives`.  Sort the drive paths; with no drives, report
and return.  Otherwise print the drive count, run the loop, and — only if no
exception escaped — print the fixed completion line. -/
def process_all_drives (outputDir : String) (drives : List Drive) : BatchResult :=
  let sortedDrives := List.insertionSort pathLe drives
  if drives.isEmpty then
    { foundCount := 0, outcomes := [], aborted := false, finalLine := none }
  else
    let p := processDrives outputDir sortedDrives
    { foundCount := drives.length, outcomes := p.1, aborted := !p.2,
      finalLine := if p.2 then some "--- All KITTI drives have been processed. ---" else none }

/-- Number of drives a batch skipped for a missing image folder. -/
def countSkips (outs : List DriveOutcome) : Nat :=
  (outs.filter fun o => match o with | .skipped _ => true | _ => false).length

/-- Number of drives whose conversion completed successfully. -/
def countSuccess (outs : List DriveOutcome) : Nat :=
  (outs.filter fun o =>
    match o with
    | .converted _ _ r => match r.outcome with | .success => true | _ => false
    | _ => false).length

/-- Number of drives whose conversion was attempted and did not succeed. -/
def countFailures (outs : List DriveOutcome) : Nat :=
  (outs.filter fun o =>
    match o with
    | .converted _ _ r => match r.outcome with | .success => false | _ => true
    | _ => false).length

/-! ### Concrete fixtures used by the witness and counterexample instances -/

/-- Folder of two uniform 3×2 BGR frames. -/
def wDecodeU : String → Option Image := fun f =>
  if f = "f1.png" then some ⟨2, 3, 3⟩
  else if f = "f2.png" then some ⟨2, 3, 3⟩
  else none

/-- Folder whose second frame has a different resolution. -/
def wDecodeM : String → Option Image := fun f =>
  if f = "a.png" then some ⟨2, 3, 3⟩
  else if f = "b.png" then some ⟨4, 5, 3⟩
  else none

/-- Folder whose second frame is unreadable (`cv2.imread` gives `None`). -/
def wDecodeB : String → Option Image := fun f =>
  if f = "f1.png" then some ⟨2, 3, 3⟩ else none

/-- Folder whose third frame is unreadable. -/
def wDecodeB4 : String → Option Image := fun f =>
  if f = "g1.png" then some ⟨2, 3, 3⟩
  else if f = "g2.png" then some ⟨2, 3, 3⟩
  else none

/-- Folder whose second frame has matching height and width but one channel. -/
def wDecodeL : String → Option Image := fun f =>
  if f = "f2.png" then some ⟨2, 3, 1⟩ else none

/-- A drive whose second frame is unreadable, so its conversion crashes. -/
def wDriveBad : Drive := ⟨"2011_09_26", "d1_sync", true, ["f1.png", "f2.png"], wDecodeB⟩

/-- A drive that converts successfully. -/
def wDriveOk : Drive := ⟨"2011_09_28", "d2_sync", true, ["f1.png"], wDecodeU⟩

/-- A drive whose `image_02/data` folder is missing. -/
def wDriveSkip : Drive := ⟨"2011_09_27", "d0_sync", false, [], wDecodeU⟩

/-- A discoverable drive (its basename ends in `_sync`) whose basename also
contains an interior `_sync`. -/
def wDriveDouble : Drive := ⟨"2011_09_26", "a_sync_sync", true, ["f1.png"], wDecodeU⟩

/-! ### Order lemmas for the two sort relations -/

theorem lexLeB_total : ∀ a b : List Char, lexLeB a b = true ∨ lexLeB b a = true := by
  intro a
  induction a with
  | nil => intro b; left; rfl
  | cons x xs ih =>
    intro b
    cases b with
    | nil => right; rfl
    | cons y ys =>
      by_cases h : x.toNat = y.toNat
      · have h2 : y.toNat = x.toNat := h.symm
        simp only [lexLeB, if_pos h, if_pos h2]
        exact ih ys
      · have h2 : ¬ y.toNat = x.toNat := fun hh => h hh.symm
        simp only [lexLeB, if_neg h, if_neg h2, decide_eq_true_eq]
        omega

theorem lexLeB_trans : ∀ a b c : List Char,
    lexLeB a b = true → lexLeB b c = true → lexLeB a c = true := by
  intro a
  induction a with
  | nil => intro b c _ _; rfl
  | cons x xs ih =>
    intro b c h1 h2
    cases b with
    | nil => simp [lexLeB] at h1
    | cons y ys =>
      cases c with
      | nil => simp [lexLeB] at h2
      | cons z zs =>
        simp only [lexLeB] at h1 h2 ⊢
        by_cases hxy : x.toNat = y.toNat <;> by_cases hyz : y.toNat = z.toNat
        · rw [if_pos hxy] at h1
          rw [if_pos hyz] at h2
          rw [if_pos (hxy.trans hyz)]
          exact ih ys zs h1 h2
        · rw [if_pos hxy] at h1
          rw [if_neg hyz] at h2
          have hlt : y.toNat < z.toNat := by simpa using h2
          rw [if_neg (by omega)]
          simp only [decide_eq_true_eq]
          omega
        · rw [if_neg hxy] at h1
          rw [if_pos hyz] at h2
          have hlt : x.toNat < y.toNat := by simpa using h1
          rw [if_neg (by omega)]
          simp only [decide_eq_true_eq]
          omega
        · rw [if_neg hxy] at h1
          rw [if_neg hyz] at h2
          have l1 : x.toNat < y.toNat := by simpa using h1
          have l2 : y.toNat < z.toNat := by simpa using h2
          rw [if_neg (by omega)]
          simp only [decide_eq_true_eq]
          omega

instance : IsTotal String lexLe :=
  ⟨fun a b => lexLeB_total a.data b.data⟩

instance : IsTrans String lexLe :=
  ⟨fun a b c h1 h2 => lexLeB_trans a.data b.data c.data h1 h2⟩

instance : IsTotal String numLe :=
  ⟨fun a b => Nat.le_total (keyNat a) (keyNat b)⟩

instance : IsTrans String numLe :=
  ⟨fun _ _ _ h1 h2 => Nat.le_trans h1 h2⟩

/-! ### Helper lemmas about the embedded operations -/

/-- Either branch of `sortFrames` permutes its input. -/
theorem sortFrames_perm (files : List String) : (sortFrames files).Perm files := by
  unfold sortFrames
  split
  · exact List.perm_insertionSort numLe files
  · exact List.perm_insertionSort lexLe files

/-- A run of frames that decode to the writer's exact height and width is
written out one by one. -/
theorem writeLoop_prefix (decode : String → Option Image) (W H : Nat) :
    ∀ (pre rest : List String) (written : List Image),
      (∀ f ∈ pre, ∃ img, decode f = some img ∧ img.height = H ∧ img.width = W) →
      writeLoop decode W H (pre ++ rest) written =
        writeLoop decode W H rest (written ++ pre.filterMap decode) := by
  intro pre
  induction pre with
  | nil => intro rest written _; simp [List.filterMap]
  | cons f fs ih =>
    intro rest written hall
    obtain ⟨img, hdec, hh, hw⟩ := hall f (List.mem_cons_self f fs)
    have hrest : ∀ g ∈ fs, ∃ img, decode g = some img ∧ img.height = H ∧ img.width = W :=
      fun g hg => hall g (List.mem_cons_of_mem f hg)
    have step : writeLoop decode W H ((f :: fs) ++ rest) written =
        writeLoop decode W H (fs ++ rest) (written ++ [img]) := by
      simp only [List.cons_append, writeLoop, hdec]
      rw [if_neg (by simp [hh, hw])]
      rfl
    rw [step, ih rest (written ++ [img]) hrest]
    simp [List.filterMap_cons, hdec]

/-- `filterMap` keeps the length of a list on which the function is total. -/
theorem filterMap_length_all_some (decode : String → Option Image) :
    ∀ fs : List String, (∀ f ∈ fs, (decode f).isSome = true) →
      (fs.filterMap decode).length = fs.length := by
  intro fs
  induction fs with
  | nil => intro _; rfl
  | cons f gs ih =>
    intro h
    obtain ⟨img, hdec⟩ := Option.isSome_iff_exists.mp (h f (List.mem_cons_self f gs))
    simp [List.filterMap_cons, hdec, ih fun g hg => h g (List.mem_cons_of_mem f hg)]

/-! ### Claim theorems -/

/-- C1: for a non-empty frame set in which every frame decodes and all decoded
frames share the height and width of the first sorted frame, `create_video`
succeeds: the writer is opened with size `(width, height)` of the first sorted
frame, every frame is written in sorted order exactly once (the written list
is the decoded sorted list, whose length is the input file count), and the
writer is released with the output file present. -/
theorem create_video_uniform_success
    (decode : String → Option Image) (files : List String)
    (first : String) (rest : List String) (img0 : Image)
    (hs : sortFrames files = first :: rest)
    (h0 : decode first = some img0)
    (hall : ∀ f ∈ files, ∃ img, decode f = some img ∧
        img.height = img0.height ∧ img.width = img0.width) :
    create_video decode files =
      { outcome := .success, size := some (img0.width, img0.height),
        written := (sortFrames files).filterMap decode,
        fileExists := true, released := true } ∧
    ((sortFrames files).filterMap decode).length = files.length := by
  have hperm := sortFrames_perm files
  have hallS : ∀ f ∈ sortFrames files, ∃ img, decode f = some img ∧
      img.height = img0.height ∧ img.width = img0.width :=
    fun f hf => hall f (hperm.mem_iff.mp hf)
  have hEmpty : files.isEmpty = false := by
    cases hf : files with
    | nil => subst hf; simp [sortFrames] at hs
    | cons a l => rfl
  have hpre : ∀ f ∈ first :: rest, ∃ img, decode f = some img ∧
      img.height = img0.height ∧ img.width = img0.width := by
    rw [← hs]; exact hallS
  constructor
  · simp only [create_video, hEmpty, Bool.false_eq_true, if_false, hs, h0]
    have hloop := writeLoop_prefix decode img0.width img0.height (first :: rest) [] [] hpre
    simp only [List.append_nil, List.nil_append] at hloop
    rw [hloop]
    rfl
  · have hsome : ∀ f ∈ sortFrames files, (decode f).isSome = true := by
      intro f hf
      obtain ⟨img, hd, _, _⟩ := hallS f hf
      simp [hd]
    rw [filterMap_length_all_some decode (sortFrames files) hsome, hperm.length_eq]

/-- Witness for C1: a folder of two uniform 3×2 frames, listed out of order,
becomes a two-frame video of size `(3, 2)`. -/
theorem create_video_uniform_success_witness :
    (sortFrames ["f2.png", "f1.png"] = "f1.png" :: ["f2.png"]) ∧
    (wDecodeU "f1.png" = some ⟨2, 3, 3⟩) ∧
    (create_video wDecodeU ["f2.png", "f1.png"] =
      { outcome := .success, size := some (3, 2),
        written := (sortFrames ["f2.png", "f1.png"]).filterMap wDecodeU,
        fileExists := true, released := true } ∧
      ((sortFrames ["f2.png", "f1.png"]).filterMap wDecodeU).length =
        (["f2.png", "f1.png"] : List String).length) := by
  refine ⟨by decide, by decide, ?_⟩
  have hall : ∀ f ∈ (["f2.png", "f1.png"] : List String), ∃ img, wDecodeU f = some img ∧
      img.height = 2 ∧ img.width = 3 := by
    intro f hf
    rcases List.mem_cons.mp hf with h | h
    · subst h; exact ⟨⟨2, 3, 3⟩, by decide, rfl, rfl⟩
    · rcases List.mem_cons.mp h with h2 | h2
      · subst h2; exact ⟨⟨2, 3, 3⟩, by decide, rfl, rfl⟩
      · cases h2
  exact create_video_uniform_success wDecodeU ["f2.png", "f1.png"] "f1.png" ["f2.png"]
    ⟨2, 3, 3⟩ (by decide) (by decide) hall

/-- C2: when, in sorted order, the frames up to some frame `bad` decode to the
first frame's height and width but `bad` decodes to a different resolution,
`create_video` stops there: the frames before `bad` are the only ones written,
the writer is released, the partial output file is removed, and the result is
a mismatch naming `bad` with the expected `(width, height)` and the actual
`(width, height)`. -/
theorem create_video_mismatch_aborts
    (decode : String → Option Image) (files goodRest after : List String)
    (first bad : String) (img0 imgB : Image)
    (hs : sortFrames files = first :: (goodRest ++ bad :: after))
    (h0 : decode first = some img0)
    (hgood : ∀ f ∈ goodRest, ∃ img, decode f = some img ∧
        img.height = img0.height ∧ img.width = img0.width)
    (hbad : decode bad = some imgB)
    (hmis : imgB.height ≠ img0.height ∨ imgB.width ≠ img0.width) :
    create_video decode files =
      { outcome := .mismatch bad img0.width img0.height imgB.width imgB.height,
        size := some (img0.width, img0.height),
        written := (first :: goodRest).filterMap decode,
        fileExists := false, released := true } := by
  have hEmpty : files.isEmpty = false := by
    cases hf : files with
    | nil => subst hf; simp [sortFrames] at hs
    | cons a l => rfl
  have hpre : ∀ f ∈ first :: goodRest, ∃ img, decode f = some img ∧
      img.height = img0.height ∧ img.width = img0.width := by
    intro f hf
    rcases List.mem_cons.mp hf with h | h
    · subst h; exact ⟨img0, h0, rfl, rfl⟩
    · exact hgood f h
  simp only [create_video, hEmpty, Bool.false_eq_true, if_false, hs, h0]
  have hsplit : first :: (goodRest ++ bad :: after) = (first :: goodRest) ++ (bad :: after) := by
    simp
  rw [hsplit, writeLoop_prefix decode img0.width img0.height (first :: goodRest)
    (bad :: after) [] hpre]
  simp only [List.nil_append, writeLoop, hbad]
  rw [if_pos hmis]

/-- Witness for C2: the second of two frames decodes to 5×4 instead of the
established 3×2, so the call aborts with a mismatch naming `b.png`, writes
only the first frame, removes the file and releases the writer. -/
theorem create_video_mismatch_aborts_witness :
    (sortFrames ["a.png", "b.png"] = "a.png" :: ([] ++ "b.png" :: [])) ∧
    (wDecodeM "a.png" = some ⟨2, 3, 3⟩) ∧
    (wDecodeM "b.png" = some ⟨4, 5, 3⟩) ∧
    ((4 : Nat) ≠ 2 ∨ (5 : Nat) ≠ 3) ∧
    create_video wDecodeM ["a.png", "b.png"] =
      { outcome := .mismatch "b.png" 3 2 5 4, size := some (3, 2),
        written := ("a.png" :: ([] : List String)).filterMap wDecodeM,
        fileExists := false, released := true } := by
  refine ⟨by decide, by decide, by decide, by decide, ?_⟩
  exact create_video_mismatch_aborts wDecodeM ["a.png", "b.png"] [] [] "a.png" "b.png"
    ⟨2, 3, 3⟩ ⟨4, 5, 3⟩ (by decide) (by decide)
    (by intro f hf; exact absurd hf (List.not_mem_nil f)) (by decide) (Or.inl (by decide))

/-- C10 (implicit): the mid-stream validation compares only the decoded
frame's height and width with the writer's; a frame whose height and width
match is written and the loop continues, whatever its `layers` (channel
count) is — nothing in the check looks at `frame.shape[2]`. -/
theorem writeLoop_ignores_layers
    (decode : String → Option Image) (W H : Nat) (path : String)
    (rest : List String) (written : List Image) (frame : Image)
    (hdec : decode path = some frame) (hh : frame.height = H) (hw : frame.width = W) :
    writeLoop decode W H (path :: rest) written =
      writeLoop decode W H rest (written ++ [frame]) := by
  simp only [writeLoop, hdec]
  rw [if_neg (by simp [hh, hw])]

/-- Witness for C10: a single-channel 3×2 frame is accepted and written into a
writer opened from a three-channel 3×2 first frame. -/
theorem writeLoop_ignores_layers_witness :
    (wDecodeL "f2.png" = some ⟨2, 3, 1⟩) ∧
    (Image.height ⟨2, 3, 1⟩ = 2) ∧ (Image.width ⟨2, 3, 1⟩ = 3) ∧
    (Image.layers ⟨2, 3, 1⟩ ≠ 3) ∧
    writeLoop wDecodeL 3 2 ["f2.png"] [⟨2, 3, 3⟩] =
      writeLoop wDecodeL 3 2 [] ([⟨2, 3, 3⟩] ++ [⟨2, 3, 1⟩]) := by
  refine ⟨by decide, rfl, rfl, by decide, ?_⟩
  exact writeLoop_ignores_layers wDecodeL 3 2 "f2.png" [] [⟨2, 3, 3⟩] ⟨2, 3, 1⟩
    (by decide) rfl rfl

/-- C5: when every basename in the set contains a digit run, the frame order
used by `create_video` (the output of `sortFrames`) is a permutation of the
discovered files that is sorted by the integer value of the first digit run
of each basename. -/
theorem sortFrames_numeric_order (files : List String)
    (hall : ∀ f ∈ files, hasKey f = true) :
    (sortFrames files).Sorted numLe ∧ (sortFrames files).Perm files := by
  have hb : files.all hasKey = true := List.all_eq_true.mpr hall
  unfold sortFrames
  rw [if_pos hb]
  exact ⟨List.sorted_insertionSort numLe files, List.perm_insertionSort numLe files⟩

/-- Witness for C5: `frame2.png` sorts before `frame10.png` (keys 2 and 10),
even though plain string order would put `frame10.png` first. -/
theorem sortFrames_numeric_order_witness :
    (∀ f ∈ (["frame10.png", "frame2.png"] : List String), hasKey f = true) ∧
    (sortFrames ["frame10.png", "frame2.png"] = ["frame2.png", "frame10.png"]) ∧
    (keyNat "frame2.png" = 2 ∧ keyNat "frame10.png" = 10) ∧
    ((sortFrames ["frame10.png", "frame2.png"]).Sorted numLe ∧
      (sortFrames ["frame10.png", "frame2.png"]).Perm ["frame10.png", "frame2.png"]) := by
  refine ⟨by decide, by decide, ⟨by decide, by decide⟩, ?_⟩
  exact sortFrames_numeric_order ["frame10.png", "frame2.png"] (by decide)

/-- C6: as soon as one basename has no digit run, the whole set is sorted by
the plain lexical string order instead — every file, including those that do
have digit runs, is ordered lexically, with no per-file mixing. -/
theorem sortFrames_lexical_fallback (files : List String) (f0 : String)
    (hf0 : f0 ∈ files) (hno : hasKey f0 = false) :
    sortFrames files = List.insertionSort lexLe files ∧
    (sortFrames files).Sorted lexLe ∧ (sortFrames files).Perm files := by
  have hb : ¬ files.all hasKey = true := by
    rw [List.all_eq_true]
    intro h
    exact absurd (h f0 hf0) (by simp [hno])
  unfold sortFrames
  rw [if_neg hb]
  exact ⟨rfl, List.sorted_insertionSort lexLe files, List.perm_insertionSort lexLe files⟩

/-- Witness for C6: `a.png` has no digit run, so the whole set
`[b10.png, a.png, b2.png]` is sorted lexically — in particular `b10.png` now
sorts before `b2.png`, though both have digit runs 10 and 2. -/
theorem sortFrames_lexical_fallback_witness :
    (("a.png" : String) ∈ (["b10.png", "a.png", "b2.png"] : List String)) ∧
    (hasKey "a.png" = false) ∧
    (sortFrames ["b10.png", "a.png", "b2.png"] = ["a.png", "b10.png", "b2.png"]) ∧
    (sortFrames ["b10.png", "a.png", "b2.png"] =
        List.insertionSort lexLe ["b10.png", "a.png", "b2.png"] ∧
      (sortFrames ["b10.png", "a.png", "b2.png"]).Sorted lexLe ∧
      (sortFrames ["b10.png", "a.png", "b2.png"]).Perm ["b10.png", "a.png", "b2.png"]) := by
  refine ⟨by decide, by decide, by decide, ?_⟩
  exact sortFrames_lexical_fallback ["b10.png", "a.png", "b2.png"] "a.png" (by decide) (by decide)

/-- C3 (code bug): when a frame after the first fails to decode, the script
does not return an unreadable-frame error — the loop body evaluates
`frame.shape` on `None` and raises an uncaught `AttributeError`.  Evaluated
here on a two-frame folder whose second frame is unreadable: the call ends in
the `crash` outcome (an exception) instead of a clean failure naming the
path, with the writer never released. -/
theorem create_video_crashes_on_unreadable_frame :
    create_video wDecodeB ["f1.png", "f2.png"] =
      { outcome := .crash "f2.png", size := some (3, 2), written := [⟨2, 3, 3⟩],
        fileExists := true, released := false } := by decide

/-- C4 (code bug): on the unreadable-mid-frame failure path the partial output
file is NOT removed.  Evaluated on a three-frame folder whose third frame is
unreadable: the encoder was created (`size` is set), the call does not
succeed, yet the file at `output_video_path` still exists on exit — a
truncated two-frame file is left behind, unlike on the mismatch path. -/
theorem create_video_crash_leaves_partial_file :
    (create_video wDecodeB4 ["g1.png", "g2.png", "g3.png"]).size.isSome = true ∧
    (create_video wDecodeB4 ["g1.png", "g2.png", "g3.png"]).outcome ≠ CVOutcome.success ∧
    (create_video wDecodeB4 ["g1.png", "g2.png", "g3.png"]).fileExists = true ∧
    (create_video wDecodeB4 ["g1.png", "g2.png", "g3.png"]).written = [⟨2, 3, 3⟩, ⟨2, 3, 3⟩] := by
  decide

/-- C7 (code bug): a drive whose conversion raises (unreadable non-first
frame) aborts the whole batch.  Evaluated on a two-drive list where the first
drive in sorted order crashes: only one drive outcome is recorded, the batch
is aborted before the second drive, and the completion line is never
printed — contradicting "no single drive's failure ever aborts processing of
the remaining drives". -/
theorem process_all_drives_crash_aborts_batch :
    (process_all_drives "out" [wDriveOk, wDriveBad]).aborted = true ∧
    (process_all_drives "out" [wDriveOk, wDriveBad]).outcomes =
      [DriveOutcome.converted "d1" "out/d1.mp4"
        { outcome := .crash "f2.png", size := some (3, 2), written := [⟨2, 3, 3⟩],
          fileExists := true, released := false }] ∧
    (process_all_drives "out" [wDriveOk, wDriveBad]).finalLine = none := by
  decide

/-- Counterexample for C8: the batch's final report carries no
success/skip/failure counts and no failure list — a batch with one successful
conversion and a batch with one skipped drive end with the identical final
line, even though their success and skip counts differ, so the final output
cannot contain those counts. -/
theorem process_all_drives_no_summary_counts :
    (process_all_drives "out" [wDriveOk]).finalLine =
      (process_all_drives "out" [wDriveSkip]).finalLine ∧
    countSuccess (process_all_drives "out" [wDriveOk]).outcomes = 1 ∧
    countSuccess (process_all_drives "out" [wDriveSkip]).outcomes = 0 ∧
    countSkips (process_all_drives "out" [wDriveOk]).outcomes = 0 ∧
    countSkips (process_all_drives "out" [wDriveSkip]).outcomes = 1 := by
  decide

/-- C8 as amended: a batch run over a non-empty drive list reports the total
number of drives discovered (the "Found n drives to process." line) and, when
the loop runs to the end without an exception, a fixed completion line; it
reports no per-outcome counts and no failure list. -/
theorem process_all_drives_end_report (outputDir : String) (drives : List Drive)
    (hne : drives ≠ []) :
    (process_all_drives outputDir drives).foundCount = drives.length ∧
    ((process_all_drives outputDir drives).aborted = false →
      (process_all_drives outputDir drives).finalLine =
        some "--- All KITTI drives have been processed. ---") := by
  have hEmpty : drives.isEmpty = false := by
    cases drives with
    | nil => exact absurd rfl hne
    | cons a l => rfl
  cases hp : (processDrives outputDir (List.insertionSort pathLe drives)).2 with
  | false =>
    constructor
    · simp [process_all_drives, hEmpty]
    · intro hab
      exfalso
      simp [process_all_drives, hEmpty, hp] at hab
  | true =>
    constructor
    · simp [process_all_drives, hEmpty]
    · intro _
      simp [process_all_drives, hEmpty, hp]

/-- Witness for C8 as amended: one discovered drive, successfully converted;
the report counts one drive and ends with the fixed completion line. -/
theorem process_all_drives_end_report_witness :
    ([wDriveOk] ≠ ([] : List Drive)) ∧
    ((process_all_drives "out" [wDriveOk]).foundCount = ([wDriveOk] : List Drive).length ∧
      ((process_all_drives "out" [wDriveOk]).aborted = false →
        (process_all_drives "out" [wDriveOk]).finalLine =
          some "--- All KITTI drives have been processed. ---")) := by
  refine ⟨List.cons_ne_nil _ _, ?_⟩
  exact process_all_drives_end_report "out" [wDriveOk] (List.cons_ne_nil _ _)

/-- Counterexample for C9: the drive basename `a_sync_sync` is discoverable
(it ends in `_sync`), but the code's `drive_name` is `a` — `replace` removes
every occurrence of `_sync` — while removing only the trailing `_sync` suffix
would give `a_sync`.  The recorded outcome therefore does not use the
suffix-stripped name. -/
theorem drive_name_not_suffix_strip :
    List.isSuffixOf ['_', 's', 'y', 'n', 'c'] "a_sync_sync".data = true ∧
    (process_all_drives "out" [wDriveDouble]).outcomes =
      [DriveOutcome.converted "a" "out/a.mp4"
        { outcome := .success, size := some (3, 2), written := [⟨2, 3, 3⟩],
          fileExists := true, released := true }] ∧
    stripSyncSuffix "a_sync_sync" = "a_sync" ∧
    replaceSync "a_sync_sync" ≠ stripSyncSuffix "a_sync_sync" := by
  decide

/-- Every outcome a batch records describes one of its drives, under the name
`replaceSync d.base` (the basename with every `_sync` occurrence removed) and,
for converted drives, the output path `<output_dir>/<drive_name>.mp4`. -/
theorem processDrives_outcome_shape (outputDir : String) :
    ∀ (l : List Drive) (o : DriveOutcome), o ∈ (processDrives outputDir l).1 →
      ∃ d ∈ l, o = if d.hasImageFolder then
          DriveOutcome.converted (replaceSync d.base)
            (outputDir ++ "/" ++ replaceSync d.base ++ ".mp4")
            (create_video d.decode d.frames)
        else DriveOutcome.skipped (replaceSync d.base) := by
  intro l
  induction l with
  | nil => intro o ho; simp [processDrives] at ho
  | cons d ds ih =>
    intro o ho
    by_cases hfold : d.hasImageFolder
    · simp only [processDrives, hfold, if_true] at ho
      by_cases hcr : isCrash (create_video d.decode d.frames).outcome
      · rw [if_pos hcr] at ho
        rcases List.mem_singleton.mp ho with rfl
        exact ⟨d, List.mem_cons_self d ds, by rw [if_pos hfold]⟩
      · rw [if_neg hcr] at ho
        rcases List.mem_cons.mp ho with h | h
        · exact ⟨d, List.mem_cons_self d ds, by rw [if_pos hfold]; exact h⟩
        · obtain ⟨d2, hd2, heq⟩ := ih o h
          exact ⟨d2, List.mem_cons_of_mem d hd2, heq⟩
    · simp only [processDrives, hfold, if_false] at ho
      rcases List.mem_cons.mp ho with h | h
      · exact ⟨d, List.mem_cons_self d ds, by rw [if_neg hfold]; exact h⟩
      · obtain ⟨d2, hd2, heq⟩ := ih o h
        exact ⟨d2, List.mem_cons_of_mem d hd2, heq⟩

/-- C9 as amended: for every discovered drive, the `drive_name` used for the
recorded outcome and the output filename is the directory's basename with
every occurrence of `_sync` removed (which coincides with stripping a trailing
`_sync` only when `_sync` occurs nowhere else), and a converted drive's output
video path is `<output_dir>/<drive_name>.mp4`. -/
theorem process_all_drives_outcome_names (outputDir : String) (drives : List Drive)
    (o : DriveOutcome) (ho : o ∈ (process_all_drives outputDir drives).outcomes) :
    ∃ d ∈ drives, o = if d.hasImageFolder then
        DriveOutcome.converted (replaceSync d.base)
          (outputDir ++ "/" ++ replaceSync d.base ++ ".mp4")
          (create_video d.decode d.frames)
      else DriveOutcome.skipped (replaceSync d.base) := by
  by_cases hEmpty : drives.isEmpty
  · simp [process_all_drives, hEmpty] at ho
  · simp only [process_all_drives, hEmpty, Bool.false_eq_true, if_false] at ho
    obtain ⟨d, hd, heq⟩ := processDrives_outcome_shape outputDir _ o ho
    exact ⟨d, (List.perm_insertionSort pathLe drives).mem_iff.mp hd, heq⟩

/-- Witness for C9 as amended: the converted outcome of `wDriveOk` (basename
`d2_sync`) is recorded under drive name `d2` with output path `out/d2.mp4`. -/
theorem process_all_drives_outcome_names_witness :
    (DriveOutcome.converted "d2" "out/d2.mp4" (create_video wDecodeU ["f1.png"]) ∈
      (process_all_drives "out" [wDriveOk]).outcomes) ∧
    ∃ d ∈ ([wDriveOk] : List Drive),
      DriveOutcome.converted "d2" "out/d2.mp4" (create_video wDecodeU ["f1.png"]) =
        if d.hasImageFolder then
          DriveOutcome.converted (replaceSync d.base)
            ("out" ++ "/" ++ replaceSync d.base ++ ".mp4")
            (create_video d.decode d.frames)
        else DriveOutcome.skipped (replaceSync d.base) := by
  refine ⟨by decide, ?_⟩
  exact process_all_drives_outcome_names "out" [wDriveOk] _ (by decide)
